import Mathlib

set_option autoImplicit false

namespace AdaptiveCards

/-- Structured-data value tree: the decoded form of the document's serialization
format (the shape of a jsoncpp Json::Value). -/
inductive JValue where
  | null : JValue
  | bool (b : Bool) : JValue
  | num (n : Int) : JValue
  | str (s : String) : JValue
  | arr (items : List JValue) : JValue
  | obj (fields : List (String × JValue)) : JValue

/-- First-match association-list lookup, used for object members, enum token
tables and the parser registry. -/
def assocFind {α : Type} : List (String × α) → String → Option α
  | [], _ => none
  | (k, v) :: rest, key => if k = key then some v else assocFind rest key

/-- Lookup of a member of a structured object node by key. -/
def getVal (fields : List (String × JValue)) (key : String) : Option JValue :=
  assocFind fields key

/-- Spacing enumeration of the base element model. -/
inductive Spacing where
  | none | small | default | medium | large | extraLarge | padding
deriving DecidableEq

/-- Image style enumeration. -/
inductive ImageStyle where
  | default | person
deriving DecidableEq

/-- Image size enumeration; the documented default is auto. -/
inductive ImageSize where
  | auto | stretch | small | medium | large
deriving DecidableEq

/-- Horizontal alignment enumeration; the documented default is left. -/
inductive HorizontalAlignment where
  | left | center | right
deriving DecidableEq

/-- Modelled from the spec: the fixed case-sensitive token table for Spacing
(Enums.cpp is not part of the provided sources). -/
def spacingTable : List (String × Spacing) :=
  [("none", Spacing.none), ("small", Spacing.small), ("default", Spacing.default),
   ("medium", Spacing.medium), ("large", Spacing.large),
   ("extraLarge", Spacing.extraLarge), ("padding", Spacing.padding)]

/-- Modelled from the spec: the fixed case-sensitive token table for ImageStyle. -/
def imageStyleTable : List (String × ImageStyle) :=
  [("default", ImageStyle.default), ("person", ImageStyle.person)]

/-- Modelled from the spec: the fixed case-sensitive token table for ImageSize. -/
def imageSizeTable : List (String × ImageSize) :=
  [("auto", ImageSize.auto), ("stretch", ImageSize.stretch), ("small", ImageSize.small),
   ("medium", ImageSize.medium), ("large", ImageSize.large)]

/-- Modelled from the spec: the fixed case-sensitive token table for
HorizontalAlignment. -/
def horizontalAlignmentTable : List (String × HorizontalAlignment) :=
  [("left", HorizontalAlignment.left), ("center", HorizontalAlignment.center),
   ("right", HorizontalAlignment.right)]

/-- Modelled from the spec: TryParse for Spacing; on no match returns the
documented default. -/
def SpacingFromString (s : String) : Spacing :=
  (assocFind spacingTable s).getD Spacing.default

/-- Modelled from the spec: TryParse for ImageStyle. -/
def ImageStyleFromString (s : String) : ImageStyle :=
  (assocFind imageStyleTable s).getD ImageStyle.default

/-- Modelled from the spec: TryParse for ImageSize; unknown tokens degrade to
the documented default Auto. -/
def ImageSizeFromString (s : String) : ImageSize :=
  (assocFind imageSizeTable s).getD ImageSize.auto

/-- Modelled from the spec: TryParse for HorizontalAlignment. -/
def HorizontalAlignmentFromString (s : String) : HorizontalAlignment :=
  (assocFind horizontalAlignmentTable s).getD HorizontalAlignment.left

/-- Modelled from the spec: ToString for Spacing (total, injective per enum). -/
def SpacingToString : Spacing → String
  | Spacing.none => "none"
  | Spacing.small => "small"
  | Spacing.default => "default"
  | Spacing.medium => "medium"
  | Spacing.large => "large"
  | Spacing.extraLarge => "extraLarge"
  | Spacing.padding => "padding"

/-- Modelled from the spec: ToString for ImageStyle. -/
def ImageStyleToString : ImageStyle → String
  | ImageStyle.default => "default"
  | ImageStyle.person => "person"

/-- Modelled from the spec: ToString for ImageSize. -/
def ImageSizeToString : ImageSize → String
  | ImageSize.auto => "auto"
  | ImageSize.stretch => "stretch"
  | ImageSize.small => "small"
  | ImageSize.medium => "medium"
  | ImageSize.large => "large"

/-- Modelled from the spec: ToString for HorizontalAlignment. -/
def HorizontalAlignmentToString : HorizontalAlignment → String
  | HorizontalAlignment.left => "left"
  | HorizontalAlignment.center => "center"
  | HorizontalAlignment.right => "right"

/-- Modelled from the spec: the abstract Action payload held by an element's
select action (BaseActionElement bodies are not part of the provided sources);
only the discriminator and title fields are modelled. -/
structure BaseActionElement where
  actionType : String
  title : String
deriving DecidableEq

/-- Modelled from the spec: serialization of an action; the discriminator is
always emitted, the title is skipped at its default. -/
def BaseActionElement.SerializeToJsonValue (a : BaseActionElement) : JValue :=
  JValue.obj (("type", JValue.str a.actionType) ::
    (if a.title = "" then [] else [("title", JValue.str a.title)]))

/-- Modelled from the spec: deserialization of an action node; the
discriminator is required, the title defaults to the empty string. -/
def ActionFromJson (v : JValue) : Option BaseActionElement :=
  match v with
  | JValue.obj fields =>
    match getVal fields "type" with
    | some (JValue.str t) =>
      some { actionType := t,
             title := match getVal fields "title" with
                      | some (JValue.str s) => s
                      | _ => "" }
    | _ => none
  | _ => none

/-- The Image element: base-model fields (id, spacing, separator) as taken by
the Image constructor in Image.h, the kind-specific fields of Image.h, and the
spec's additionalProperties holding unknown keys verbatim. -/
structure Image where
  id : String
  spacing : Spacing
  separator : Bool
  url : String
  imageStyle : ImageStyle
  imageSize : ImageSize
  altText : String
  hAlignment : HorizontalAlignment
  selectAction : Option BaseActionElement
  additionalProperties : List (String × JValue)

def Image.GetUrl (i : Image) : String := i.url

def Image.SetUrl (i : Image) (value : String) : Image := { i with url := value }

def Image.GetImageStyle (i : Image) : ImageStyle := i.imageStyle

def Image.SetImageStyle (i : Image) (value : ImageStyle) : Image := { i with imageStyle := value }

def Image.GetImageSize (i : Image) : ImageSize := i.imageSize

def Image.SetImageSize (i : Image) (value : ImageSize) : Image := { i with imageSize := value }

def Image.GetAltText (i : Image) : String := i.altText

def Image.SetAltText (i : Image) (value : String) : Image := { i with altText := value }

def Image.GetHorizontalAlignment (i : Image) : HorizontalAlignment := i.hAlignment

def Image.SetHorizontalAlignment (i : Image) (value : HorizontalAlignment) : Image :=
  { i with hAlignment := value }

def Image.GetSelectAction (i : Image) : Option BaseActionElement := i.selectAction

def Image.SetSelectAction (i : Image) (action : Option BaseActionElement) : Image :=
  { i with selectAction := action }

/-- The schema key names the Image deserializer consumes; every other key is
preserved verbatim in additionalProperties. -/
def knownImageKeys : List String :=
  ["type", "id", "spacing", "separator", "url", "style", "size",
   "altText", "horizontalAlignment", "selectAction"]

def isKnownImageKey (k : String) : Bool := knownImageKeys.contains k

/-- A serialized chunk for one optional field: empty when the field equals its
default, a single member otherwise. -/
def skipDefault (key : String) (isDefault : Bool) (v : JValue) : List (String × JValue) :=
  if isDefault then [] else [(key, v)]

/-- The serialized chunk for the optional select action. -/
def actionChunk (o : Option BaseActionElement) : List (String × JValue) :=
  match o with
  | some a => [("selectAction", a.SerializeToJsonValue)]
  | none => []

/-- Modelled from the spec: Image::SerializeToJsonValue (its body is not part
of the provided sources). Emits the discriminator first, then base fields, then
kind-specific fields, skipping fields equal to their default (the required url
is always emitted), then re-emits additionalProperties. -/
def Image.SerializeToJsonValue (i : Image) : JValue :=
  JValue.obj (("type", JValue.str "Image") ::
    (skipDefault "id" (i.id == "") (JValue.str i.id) ++
     (skipDefault "spacing" (i.spacing == Spacing.default)
        (JValue.str (SpacingToString i.spacing)) ++
      (skipDefault "separator" (i.separator == false) (JValue.bool i.separator) ++
       (("url", JValue.str i.url) ::
        (skipDefault "style" (i.imageStyle == ImageStyle.default)
           (JValue.str (ImageStyleToString i.imageStyle)) ++
         (skipDefault "size" (i.imageSize == ImageSize.auto)
            (JValue.str (ImageSizeToString i.imageSize)) ++
          (skipDefault "altText" (i.altText == "") (JValue.str i.altText) ++
           (skipDefault "horizontalAlignment" (i.hAlignment == HorizontalAlignment.left)
              (JValue.str (HorizontalAlignmentToString i.hAlignment)) ++
            (actionChunk i.selectAction ++ i.additionalProperties))))))))))

/-- String member read with a default for absent or non-string values. -/
def getStringField (fields : List (String × JValue)) (key : String) (dflt : String) : String :=
  match getVal fields key with
  | some (JValue.str s) => s
  | _ => dflt

/-- Boolean member read defaulting to false. -/
def getBoolField (fields : List (String × JValue)) (key : String) : Bool :=
  match getVal fields key with
  | some (JValue.bool b) => b
  | _ => false

/-- Modelled from the spec: the fast-path Image deserializer, which assumes the
type discriminator already matched. The required url must be present as a
string; every optional field falls back to its documented default; unknown keys
are preserved in additionalProperties. -/
def ImageParser.DeserializeWithoutCheckingType (root : JValue) : Option Image :=
  match root with
  | JValue.obj fields =>
    match getVal fields "url" with
    | some (JValue.str u) =>
      some { id := getStringField fields "id" "",
             spacing := SpacingFromString (getStringField fields "spacing" "default"),
             separator := getBoolField fields "separator",
             url := u,
             imageStyle := ImageStyleFromString (getStringField fields "style" "default"),
             imageSize := ImageSizeFromString (getStringField fields "size" "auto"),
             altText := getStringField fields "altText" "",
             hAlignment :=
               HorizontalAlignmentFromString (getStringField fields "horizontalAlignment" "left"),
             selectAction := (getVal fields "selectAction").bind ActionFromJson,
             additionalProperties := fields.filter (fun p => !(isKnownImageKey p.1)) }
    | _ => none
  | _ => none

/-- Whether a node is an object whose type member equals the given
discriminator. -/
def jsonHasType (root : JValue) (t : String) : Bool :=
  match root with
  | JValue.obj fields =>
    match getVal fields "type" with
    | some (JValue.str s) => s = t
    | _ => false
  | _ => false

/-- Modelled from the spec: the defensive Image deserializer, which performs
the discriminator check itself before delegating to the fast path. -/
def ImageParser.Deserialize (root : JValue) : Option Image :=
  if jsonHasType root "Image" then ImageParser.DeserializeWithoutCheckingType root else none

/-- Opening brace character of the serialization format. -/
def lbrace : Char := Char.ofNat 123

/-- Closing brace character of the serialization format. -/
def rbrace : Char := Char.ofNat 125

/-- Skip the whitespace of the serialization format. -/
def skipWs : List Char → List Char
  | [] => []
  | c :: cs => if c = ' ' ∨ c = '\n' ∨ c = '\t' ∨ c = '\r' then skipWs cs else c :: cs

/-- Scan the characters of a quoted text literal up to its closing quote. -/
def takeStringChars : List Char → Option (List Char × List Char)
  | [] => none
  | c :: cs =>
    if c = '"' then some ([], cs)
    else (takeStringChars cs).map (fun r => (c :: r.1, r.2))

/-- Span of leading decimal digits. -/
def takeDigits : List Char → List Char × List Char
  | [] => ([], [])
  | c :: cs =>
    if c.isDigit then
      let r := takeDigits cs
      (c :: r.1, r.2)
    else ([], c :: cs)

/-- Decimal value of a digit run. -/
def digitsToNat (ds : List Char) : Nat :=
  ds.foldl (fun a c => a * 10 + (c.toNat - 48)) 0

mutual

/-- Modelled from the spec: format decoding of one value from raw text (the
jsoncpp reader is an external dependency); fuelled to keep recursion over the
remaining characters well founded. -/
def parseValue : Nat → List Char → Option (JValue × List Char)
  | 0, _ => none
  | Nat.succ fuel, cs =>
    match skipWs cs with
    | [] => none
    | c :: rest =>
      if c = 'n' then
        match rest with
        | 'u' :: 'l' :: 'l' :: r => some (JValue.null, r)
        | _ => none
      else if c = 't' then
        match rest with
        | 'r' :: 'u' :: 'e' :: r => some (JValue.bool true, r)
        | _ => none
      else if c = 'f' then
        match rest with
        | 'a' :: 'l' :: 's' :: 'e' :: r => some (JValue.bool false, r)
        | _ => none
      else if c = '"' then
        (takeStringChars rest).map (fun r => (JValue.str (String.mk r.1), r.2))
      else if c = '[' then
        match skipWs rest with
        | ']' :: r => some (JValue.arr [], r)
        | r2 => (parseItems fuel r2).map (fun p => (JValue.arr p.1, p.2))
      else if c = lbrace then
        match skipWs rest with
        | d :: r =>
          if d = rbrace then some (JValue.obj [], r)
          else (parseMembers fuel (d :: r)).map (fun p => (JValue.obj p.1, p.2))
        | [] => none
      else if c = '-' then
        let p := takeDigits rest
        if p.1 = [] then none else some (JValue.num (-(digitsToNat p.1 : Int)), p.2)
      else if c.isDigit then
        let p := takeDigits (c :: rest)
        some (JValue.num (digitsToNat p.1 : Int), p.2)
      else none
  termination_by fuel _ => fuel

/-- Decoding of the comma-separated items of a non-empty array. -/
def parseItems : Nat → List Char → Option (List JValue × List Char)
  | 0, _ => none
  | Nat.succ fuel, cs =>
    match parseValue fuel cs with
    | none => none
    | some (v, r) =>
      match skipWs r with
      | ',' :: r2 => (parseItems fuel r2).map (fun p => (v :: p.1, p.2))
      | ']' :: r2 => some ([v], r2)
      | _ => none
  termination_by fuel _ => fuel

/-- Decoding of the comma-separated members of a non-empty object. -/
def parseMembers : Nat → List Char → Option (List (String × JValue) × List Char)
  | 0, _ => none
  | Nat.succ fuel, cs =>
    match skipWs cs with
    | '"' :: r =>
      match takeStringChars r with
      | none => none
      | some (kcs, r2) =>
        match skipWs r2 with
        | ':' :: r3 =>
          match parseValue fuel r3 with
          | none => none
          | some (v, r4) =>
            match skipWs r4 with
            | ',' :: r5 => (parseMembers fuel r5).map (fun p => ((String.mk kcs, v) :: p.1, p.2))
            | d :: r5 => if d = rbrace then some ([(String.mk kcs, v)], r5) else none
            | [] => none
        | _ => none
    | _ => none
  termination_by fuel _ => fuel

end

/-- Modelled from the spec: decoding raw text into the structured node tree; a
pure function failing on malformed encoding. -/
def parseJson (s : String) : Option JValue :=
  match parseValue (s.length + 1) s.data with
  | some (v, rest) =>
    match skipWs rest with
    | [] => some v
    | _ => none
  | none => none

/-- Modelled from the spec: the text entry point, which performs format
decoding and then delegates to the node entry point. -/
def ImageParser.DeserializeFromString (jsonString : String) : Option Image :=
  match parseJson jsonString with
  | some root => ImageParser.Deserialize root
  | none => none

/-- Kinds of non-fatal diagnostics. -/
inductive WarningKind where
  | UnknownElementType | FallbackDropped | ElementFailed
deriving DecidableEq

/-- Kinds of fatal failures. -/
inductive ErrorKind where
  | MalformedEncoding | InvalidDocumentType | MissingBody
deriving DecidableEq

/-- A non-fatal diagnostic: a kind and a message. -/
abbrev Warning := WarningKind × String

/-- An element of a parsed document tree: a typed built-in element, the
placeholder preserving an unknown node verbatim, or a host-registered custom
element. -/
inductive ParsedElement where
  | image (img : Image)
  | unknownElement (raw : JValue)
  | custom (tag : String) (raw : JValue)

/-- A deserializer capability stored in the registry. -/
abbrev ElementDeserializer := JValue → Option ParsedElement

/-- Modelled from the spec: the parser registry, a mapping keyed by
discriminator (ElementParserRegistration bodies are not part of the provided
sources). -/
abbrev ElementParserRegistration := List (String × ElementDeserializer)

/-- Modelled from the spec: Register overwrites any existing entry for the key,
without error. -/
def Register (reg : ElementParserRegistration) (k : String) (d : ElementDeserializer) :
    ElementParserRegistration :=
  (k, d) :: reg.filter (fun p => p.1 != k)

/-- Modelled from the spec: Unregister removes the entry for the key and is a
no-op when the key is absent. -/
def Unregister (reg : ElementParserRegistration) (k : String) : ElementParserRegistration :=
  reg.filter (fun p => p.1 != k)

/-- Modelled from the spec: registry lookup. -/
def Get (reg : ElementParserRegistration) (k : String) : Option ElementDeserializer :=
  assocFind reg k

/-- The built-in Image deserializer as seeded into a fresh registry. -/
def imageElementDeserializer : ElementDeserializer :=
  fun v => (ImageParser.DeserializeWithoutCheckingType v).map ParsedElement.image

/-- Modelled from the spec: the registry seeded at Document construction with
the built-in kinds (of the provided sources, Image). -/
def defaultElementRegistration : ElementParserRegistration :=
  [("Image", imageElementDeserializer)]

/-- A Document context carrying its own registry, seeded at construction. -/
structure CardDocumentContext where
  elementParsers : ElementParserRegistration

/-- A separately constructed Document context with the built-in registry. -/
def mkCardDocument : CardDocumentContext :=
  { elementParsers := defaultElementRegistration }

/-- Host extension call registering an element deserializer on one Document. -/
def CardDocumentContext.registerElement (doc : CardDocumentContext) (k : String)
    (d : ElementDeserializer) : CardDocumentContext :=
  { doc with elementParsers := Register doc.elementParsers k d }

/-- The type member of an element node, when present as a string. -/
def getTypeString (v : JValue) : Option String :=
  match v with
  | JValue.obj fields =>
    match getVal fields "type" with
    | some (JValue.str s) => some s
    | _ => none
  | _ => none

/-- The fallback member of an element node. -/
def getFallback (v : JValue) : Option JValue :=
  match v with
  | JValue.obj fields => getVal fields "fallback"
  | _ => none

/-- Modelled from the spec: the deserialization engine for one element node.
Resolves the discriminator in the registry; an unknown kind yields the
placeholder plus an UnknownElementType warning, or recurses into a declared
fallback; fallback recursion is bounded by the remaining depth, and on
exhaustion the element is dropped with an additional warning. -/
def ParseElement (reg : ElementParserRegistration) (fuel : Nat) (v : JValue) :
    Option ParsedElement × List Warning :=
  match getTypeString v with
  | none => (none, [(WarningKind.ElementFailed, "missing type")])
  | some t =>
    match Get reg t with
    | some d =>
      match d v with
      | some e => (some e, [])
      | none => (none, [(WarningKind.ElementFailed, t)])
    | none =>
      match getFallback v with
      | none => (some (ParsedElement.unknownElement v), [(WarningKind.UnknownElementType, t)])
      | some fb =>
        match fuel with
        | 0 => (none, [(WarningKind.UnknownElementType, t), (WarningKind.FallbackDropped, t)])
        | Nat.succ fuel' =>
          let r := ParseElement reg fuel' fb
          (r.1, (WarningKind.UnknownElementType, t) :: r.2)

/-- The number of engine steps taken on one node: one for the node itself plus
the steps of its fallback chain. -/
def ParseElementSteps (reg : ElementParserRegistration) (fuel : Nat) (v : JValue) : Nat :=
  match getTypeString v with
  | none => 1
  | some t =>
    match Get reg t with
    | some _ => 1
    | none =>
      match getFallback v with
      | none => 1
      | some fb =>
        match fuel with
        | 0 => 1
        | Nat.succ fuel' => 1 + ParseElementSteps reg fuel' fb

/-- The root document object. -/
structure AdaptiveCard where
  version : String
  body : List ParsedElement

/-- The result bundle of a parse call. -/
structure ParseResult where
  document : Option AdaptiveCard
  warnings : List Warning
  error : Option (ErrorKind × String)

/-- Modelled from the spec: the document assembler. Fatal error only when the
root is structurally unparsable (wrong discriminator or missing body);
otherwise each body node goes through the engine, node failures are isolated,
and warnings accumulate in order. -/
def ParseCard (reg : ElementParserRegistration) (maxDepth : Nat) (root : JValue) : ParseResult :=
  match root with
  | JValue.obj fields =>
    if jsonHasType root "AdaptiveCard" then
      match getVal fields "body" with
      | some (JValue.arr items) =>
        let parsed := items.map (fun v => ParseElement reg maxDepth v)
        { document := some { version := getStringField fields "version" "1.0",
                             body := parsed.filterMap (fun r => r.1) },
          warnings := List.flatten (parsed.map (fun r => r.2)),
          error := none }
      | _ => { document := none, warnings := [],
               error := some (ErrorKind.MissingBody, "missing body") }
    else { document := none, warnings := [],
           error := some (ErrorKind.InvalidDocumentType, "not an AdaptiveCard") }
  | _ => { document := none, warnings := [],
           error := some (ErrorKind.InvalidDocumentType, "root is not an object") }

/-- Modelled from the spec: the whole-text parse call; malformed encoding is
the fatal MalformedEncoding error. -/
def ParseCardFromString (reg : ElementParserRegistration) (maxDepth : Nat) (s : String) :
    ParseResult :=
  match parseJson s with
  | none => { document := none, warnings := [],
              error := some (ErrorKind.MalformedEncoding, "invalid encoding") }
  | some v => ParseCard reg maxDepth v

/-- COM result codes, as integers. -/
abbrev HRESULT := Int

/-- The COM success code. -/
def S_OK : HRESULT := 0

/-- ComPtr::CopyTo: writes the held pointer (possibly null) to the out
parameter and returns S_OK. -/
def ComPtrCopyTo {α : Type} (p : Option α) : HRESULT × Option α := (S_OK, p)

/-- The UWP parse-result wrapper of AdaptiveCardParseResult.cpp: three smart
pointers, all null on default construction. -/
structure AdaptiveCardParseResult (α : Type) where
  m_adaptiveCard : Option α
  m_errors : Option (List String)
  m_warnings : Option (List String)

/-- The default constructor, which initializes no member. -/
def AdaptiveCardParseResult.mkDefault (α : Type) : AdaptiveCardParseResult α :=
  { m_adaptiveCard := none, m_errors := none, m_warnings := none }

/-- The parameterless RuntimeClassInitialize overload: returns S_OK and sets
nothing. -/
def AdaptiveCardParseResult.RuntimeClassInitializeEmpty {α : Type}
    (r : AdaptiveCardParseResult α) : HRESULT × AdaptiveCardParseResult α :=
  (S_OK, r)

/-- The RuntimeClassInitialize overload taking a card: stores it and returns
S_OK. -/
def AdaptiveCardParseResult.RuntimeClassInitializeWith {α : Type}
    (r : AdaptiveCardParseResult α) (value : Option α) : HRESULT × AdaptiveCardParseResult α :=
  (S_OK, { r with m_adaptiveCard := value })

/-- get_AdaptiveCard: CopyTo on the held card pointer. -/
def AdaptiveCardParseResult.get_AdaptiveCard {α : Type} (r : AdaptiveCardParseResult α) :
    HRESULT × Option α :=
  ComPtrCopyTo r.m_adaptiveCard

/-- get_Errors: CopyTo on the held errors vector pointer. -/
def AdaptiveCardParseResult.get_Errors {α : Type} (r : AdaptiveCardParseResult α) :
    HRESULT × Option (List String) :=
  ComPtrCopyTo r.m_errors

/-- get_Warnings: CopyTo on the held warnings vector pointer. -/
def AdaptiveCardParseResult.get_Warnings {α : Type} (r : AdaptiveCardParseResult α) :
    HRESULT × Option (List String) :=
  ComPtrCopyTo r.m_warnings

/-- A concrete Image node carrying an unknown extra key, and its deserialized
form. -/
def c1Node : JValue :=
  JValue.obj [("type", JValue.str "Image"), ("url", JValue.str "http://x/y.png"),
    ("size", JValue.str "large"), ("extra", JValue.num 1)]

def c1Image : Image :=
  { id := "", spacing := Spacing.default, separator := false, url := "http://x/y.png",
    imageStyle := ImageStyle.default, imageSize := ImageSize.large, altText := "",
    hAlignment := HorizontalAlignment.left, selectAction := none,
    additionalProperties := [("extra", JValue.num 1)] }

theorem getVal_nil (k : String) : getVal [] k = none := rfl

theorem getVal_cons (k0 : String) (v0 : JValue) (l : List (String × JValue)) (k : String) :
    getVal ((k0, v0) :: l) k = if k0 = k then some v0 else getVal l k := rfl

theorem getVal_skip_ne (key : String) (b : Bool) (v : JValue) (l : List (String × JValue))
    (k : String) (h : key ≠ k) : getVal (skipDefault key b v ++ l) k = getVal l k := by
  cases b <;> simp [skipDefault, getVal_cons, h]

theorem getVal_skip_self (key : String) (b : Bool) (v : JValue) (l : List (String × JValue)) :
    getVal (skipDefault key b v ++ l) key = if b then getVal l key else some v := by
  cases b <;> simp [skipDefault, getVal_cons]

theorem getVal_action_ne (o : Option BaseActionElement) (l : List (String × JValue)) (k : String)
    (h : "selectAction" ≠ k) : getVal (actionChunk o ++ l) k = getVal l k := by
  cases o <;> simp [actionChunk, getVal_cons, h]

theorem getVal_unknown_none (l : List (String × JValue)) (k : String)
    (hl : ∀ p ∈ l, isKnownImageKey p.1 = false) (hk : isKnownImageKey k = true) :
    getVal l k = none := by
  induction l with
  | nil => rfl
  | cons p rest ih =>
    obtain ⟨k0, v0⟩ := p
    rw [getVal_cons]
    have h0 : isKnownImageKey k0 = false := hl (k0, v0) (List.mem_cons_self _ _)
    have hne : k0 ≠ k := by
      intro he
      rw [he, hk] at h0
      exact Bool.noConfusion h0
    rw [if_neg hne]
    exact ih (fun p hp => hl p (List.mem_cons_of_mem _ hp))

theorem spacing_from_to (v : Spacing) : SpacingFromString (SpacingToString v) = v := by
  cases v <;> rfl

theorem imageStyle_from_to (v : ImageStyle) : ImageStyleFromString (ImageStyleToString v) = v := by
  cases v <;> rfl

theorem imageSize_from_to (v : ImageSize) : ImageSizeFromString (ImageSizeToString v) = v := by
  cases v <;> rfl

theorem horizontalAlignment_from_to (v : HorizontalAlignment) :
    HorizontalAlignmentFromString (HorizontalAlignmentToString v) = v := by
  cases v <;> rfl

theorem action_from_to (a : BaseActionElement) :
    ActionFromJson a.SerializeToJsonValue = some a := by
  obtain ⟨t, ti⟩ := a
  by_cases h : ti = ""
  · subst h
    simp [ActionFromJson, BaseActionElement.SerializeToJsonValue, getVal, assocFind]
  · simp [ActionFromJson, BaseActionElement.SerializeToJsonValue, getVal, assocFind, h]

theorem filter_skipDefault (key : String) (b : Bool) (v : JValue)
    (hk : isKnownImageKey key = true) :
    (skipDefault key b v).filter (fun p => !(isKnownImageKey p.1)) = [] := by
  cases b <;> simp [skipDefault, hk]

set_option maxHeartbeats 2000000 in
theorem image_deser_ser (i : Image)
    (hwf : ∀ p ∈ i.additionalProperties, isKnownImageKey p.1 = false) :
    ImageParser.Deserialize i.SerializeToJsonValue = some i := by
  obtain ⟨idf, sp, sep, url, style, size, alt, hal, act, addl⟩ := i
  simp only at hwf
  have h1 : getVal addl "id" = none := getVal_unknown_none addl _ hwf (by decide)
  have h2 : getVal addl "spacing" = none := getVal_unknown_none addl _ hwf (by decide)
  have h3 : getVal addl "separator" = none := getVal_unknown_none addl _ hwf (by decide)
  have h4 : getVal addl "style" = none := getVal_unknown_none addl _ hwf (by decide)
  have h5 : getVal addl "size" = none := getVal_unknown_none addl _ hwf (by decide)
  have h6 : getVal addl "altText" = none := getVal_unknown_none addl _ hwf (by decide)
  have h7 : getVal addl "horizontalAlignment" = none := getVal_unknown_none addl _ hwf (by decide)
  have h8 : getVal addl "selectAction" = none := getVal_unknown_none addl _ hwf (by decide)
  have hk1 : isKnownImageKey "type" = true := by decide
  have hk2 : isKnownImageKey "id" = true := by decide
  have hk3 : isKnownImageKey "spacing" = true := by decide
  have hk4 : isKnownImageKey "separator" = true := by decide
  have hk5 : isKnownImageKey "url" = true := by decide
  have hk6 : isKnownImageKey "style" = true := by decide
  have hk7 : isKnownImageKey "size" = true := by decide
  have hk8 : isKnownImageKey "altText" = true := by decide
  have hk9 : isKnownImageKey "horizontalAlignment" = true := by decide
  have hk10 : isKnownImageKey "selectAction" = true := by decide
  have hfilter : addl.filter (fun p => !(isKnownImageKey p.1)) = addl := by
    rw [List.filter_eq_self]
    intro p hp
    rw [hwf p hp]
    rfl
  have hv1 : SpacingFromString "default" = Spacing.default := rfl
  have hv2 : ImageStyleFromString "default" = ImageStyle.default := rfl
  have hv3 : ImageSizeFromString "auto" = ImageSize.auto := rfl
  have hv4 : HorizontalAlignmentFromString "left" = HorizontalAlignment.left := rfl
  cases act with
  | none =>
    simp [ImageParser.Deserialize, Image.SerializeToJsonValue, jsonHasType,
      ImageParser.DeserializeWithoutCheckingType, getStringField, getBoolField,
      getVal_cons, getVal_skip_ne, getVal_skip_self, actionChunk,
      List.filter_cons, List.filter_append, filter_skipDefault,
      hfilter, h1, h2, h3, h4, h5, h6, h7, h8,
      hk1, hk2, hk3, hk4, hk5, hk6, hk7, hk8, hk9, hk10]
    split_ifs <;>
      simp_all [spacing_from_to, imageStyle_from_to, imageSize_from_to,
        horizontalAlignment_from_to, hv1, hv2, hv3, hv4]
  | some a =>
    simp [ImageParser.Deserialize, Image.SerializeToJsonValue, jsonHasType,
      ImageParser.DeserializeWithoutCheckingType, getStringField, getBoolField,
      getVal_cons, getVal_skip_ne, getVal_skip_self, actionChunk, action_from_to,
      List.filter_cons, List.filter_append, filter_skipDefault,
      hfilter, h1, h2, h3, h4, h5, h6, h7, h8,
      hk1, hk2, hk3, hk4, hk5, hk6, hk7, hk8, hk9, hk10]
    split_ifs <;>
      simp_all [spacing_from_to, imageStyle_from_to, imageSize_from_to,
        horizontalAlignment_from_to, hv1, hv2, hv3, hv4]

theorem deser_wf (root : JValue) (i : Image)
    (h : ImageParser.DeserializeWithoutCheckingType root = some i) :
    ∀ p ∈ i.additionalProperties, isKnownImageKey p.1 = false := by
  cases root with
  | obj fields =>
    simp only [ImageParser.DeserializeWithoutCheckingType] at h
    split at h
    · injection h with h2
      subst h2
      intro p hp
      simpa using (List.mem_filter.mp hp).2
    · exact absurd h (by simp)
  | null => exact absurd h (by simp [ImageParser.DeserializeWithoutCheckingType])
  | bool b => exact absurd h (by simp [ImageParser.DeserializeWithoutCheckingType])
  | num n => exact absurd h (by simp [ImageParser.DeserializeWithoutCheckingType])
  | str s => exact absurd h (by simp [ImageParser.DeserializeWithoutCheckingType])
  | arr xs => exact absurd h (by simp [ImageParser.DeserializeWithoutCheckingType])

/-- Claim C1: deserializing a syntactically valid Image node, serializing the
result with SerializeToJsonValue and deserializing again yields an object equal
to the one obtained by deserializing once, unknown preserved keys included. -/
theorem image_roundtrip_C1 (x : JValue) (img : Image)
    (h : ImageParser.Deserialize x = some img) :
    ImageParser.Deserialize img.SerializeToJsonValue = some img := by
  have hw : ImageParser.DeserializeWithoutCheckingType x = some img := by
    unfold ImageParser.Deserialize at h
    split at h
    · exact h
    · exact absurd h (by simp)
  exact image_deser_ser img (deser_wf x img hw)

/-- Witness for C1 at a concrete node carrying an unknown extra key. -/
theorem image_roundtrip_C1_witness :
    ImageParser.Deserialize c1Node = some c1Image ∧
    ImageParser.Deserialize c1Image.SerializeToJsonValue = some c1Image :=
  ⟨rfl, image_roundtrip_C1 c1Node c1Image rfl⟩

/-- Claim C2: the defensive entry point agrees with the fast-path entry point
on every node whose type member is the expected discriminator, and the text
entry point equals format decoding followed by the node entry point. -/
theorem parser_entry_points_C2 :
    (∀ root : JValue, jsonHasType root "Image" = true →
      ImageParser.Deserialize root = ImageParser.DeserializeWithoutCheckingType root) ∧
    (∀ s : String,
      ImageParser.DeserializeFromString s = (parseJson s).bind ImageParser.Deserialize) := by
  constructor
  · intro root h
    simp [ImageParser.Deserialize, h]
  · intro s
    unfold ImageParser.DeserializeFromString
    cases parseJson s <;> simp

/-- Witness for C2 at a concrete typed node. -/
theorem parser_entry_points_C2_witness :
    ImageParser.Deserialize
        (JValue.obj [("type", JValue.str "Image"), ("url", JValue.str "u")]) =
      ImageParser.DeserializeWithoutCheckingType
        (JValue.obj [("type", JValue.str "Image"), ("url", JValue.str "u")]) :=
  parser_entry_points_C2.1 _ rfl

/-- Claim C9: the three accessors of the UWP parse-result wrapper always return
success, and on a default-constructed result all three yield null, so a result
can observably hold no document, no errors and no warnings at once. -/
theorem uwp_accessors_C9 :
    (∀ (α : Type) (r : AdaptiveCardParseResult α),
      (r.get_AdaptiveCard).1 = S_OK ∧ (r.get_Errors).1 = S_OK ∧ (r.get_Warnings).1 = S_OK) ∧
    (∀ α : Type,
      (AdaptiveCardParseResult.mkDefault α).get_AdaptiveCard = (S_OK, none) ∧
      (AdaptiveCardParseResult.mkDefault α).get_Errors = (S_OK, none) ∧
      (AdaptiveCardParseResult.mkDefault α).get_Warnings = (S_OK, none)) :=
  ⟨fun _ _ => ⟨rfl, rfl, rfl⟩, fun _ => ⟨rfl, rfl, rfl⟩⟩

/-- Claim C10: each Image setter updates exactly its own field as observed
through the getters, leaving the other five fields unchanged. -/
theorem image_setters_C10 (i : Image) (su : String) (st : ImageStyle) (sz : ImageSize)
    (sa : String) (ha : HorizontalAlignment) (ac : Option BaseActionElement) :
    ((i.SetUrl su).GetUrl = su ∧ (i.SetUrl su).GetImageStyle = i.GetImageStyle ∧
      (i.SetUrl su).GetImageSize = i.GetImageSize ∧ (i.SetUrl su).GetAltText = i.GetAltText ∧
      (i.SetUrl su).GetHorizontalAlignment = i.GetHorizontalAlignment ∧
      (i.SetUrl su).GetSelectAction = i.GetSelectAction) ∧
    ((i.SetImageStyle st).GetImageStyle = st ∧ (i.SetImageStyle st).GetUrl = i.GetUrl ∧
      (i.SetImageStyle st).GetImageSize = i.GetImageSize ∧
      (i.SetImageStyle st).GetAltText = i.GetAltText ∧
      (i.SetImageStyle st).GetHorizontalAlignment = i.GetHorizontalAlignment ∧
      (i.SetImageStyle st).GetSelectAction = i.GetSelectAction) ∧
    ((i.SetImageSize sz).GetImageSize = sz ∧ (i.SetImageSize sz).GetUrl = i.GetUrl ∧
      (i.SetImageSize sz).GetImageStyle = i.GetImageStyle ∧
      (i.SetImageSize sz).GetAltText = i.GetAltText ∧
      (i.SetImageSize sz).GetHorizontalAlignment = i.GetHorizontalAlignment ∧
      (i.SetImageSize sz).GetSelectAction = i.GetSelectAction) ∧
    ((i.SetAltText sa).GetAltText = sa ∧ (i.SetAltText sa).GetUrl = i.GetUrl ∧
      (i.SetAltText sa).GetImageStyle = i.GetImageStyle ∧
      (i.SetAltText sa).GetImageSize = i.GetImageSize ∧
      (i.SetAltText sa).GetHorizontalAlignment = i.GetHorizontalAlignment ∧
      (i.SetAltText sa).GetSelectAction = i.GetSelectAction) ∧
    ((i.SetHorizontalAlignment ha).GetHorizontalAlignment = ha ∧
      (i.SetHorizontalAlignment ha).GetUrl = i.GetUrl ∧
      (i.SetHorizontalAlignment ha).GetImageStyle = i.GetImageStyle ∧
      (i.SetHorizontalAlignment ha).GetImageSize = i.GetImageSize ∧
      (i.SetHorizontalAlignment ha).GetAltText = i.GetAltText ∧
      (i.SetHorizontalAlignment ha).GetSelectAction = i.GetSelectAction) ∧
    ((i.SetSelectAction ac).GetSelectAction = ac ∧ (i.SetSelectAction ac).GetUrl = i.GetUrl ∧
      (i.SetSelectAction ac).GetImageStyle = i.GetImageStyle ∧
      (i.SetSelectAction ac).GetImageSize = i.GetImageSize ∧
      (i.SetSelectAction ac).GetAltText = i.GetAltText ∧
      (i.SetSelectAction ac).GetHorizontalAlignment = i.GetHorizontalAlignment) :=
  ⟨⟨rfl, rfl, rfl, rfl, rfl, rfl⟩, ⟨rfl, rfl, rfl, rfl, rfl, rfl⟩,
    ⟨rfl, rfl, rfl, rfl, rfl, rfl⟩, ⟨rfl, rfl, rfl, rfl, rfl, rfl⟩,
    ⟨rfl, rfl, rfl, rfl, rfl, rfl⟩, ⟨rfl, rfl, rfl, rfl, rfl, rfl⟩⟩

theorem assocFind_filter_ne {α : Type} (l : List (String × α)) (k k2 : String)
    (h : k2 ≠ k) :
    assocFind (l.filter (fun p => p.1 != k)) k2 = assocFind l k2 := by
  induction l with
  | nil => rfl
  | cons p rest ih =>
    obtain ⟨k0, v0⟩ := p
    by_cases h0 : k0 = k
    · subst h0
      have hne : k0 ≠ k2 := fun he => h he.symm
      simp [List.filter_cons, assocFind, hne, ih]
    · simp only [List.filter_cons]
      rw [if_pos (by simpa using h0)]
      by_cases h2 : k0 = k2 <;> simp [assocFind, h2, ih]

theorem assocFind_none_filter_self {α : Type} (l : List (String × α)) (k : String)
    (h : assocFind l k = none) : l.filter (fun p => p.1 != k) = l := by
  induction l with
  | nil => rfl
  | cons p rest ih =>
    obtain ⟨k0, v0⟩ := p
    simp only [assocFind] at h
    by_cases h0 : k0 = k
    · rw [if_pos h0] at h
      exact absurd h (by simp)
    · rw [if_neg h0] at h
      simp [List.filter_cons, h0, ih h]

/-- Claim C3: every parse call returns a result with exactly one of document
and error populated; warnings are carried either way, and the fatal error,
when present, is a single kind-message pair. -/
theorem parse_result_exclusive_C3 :
    (∀ (reg : ElementParserRegistration) (maxDepth : Nat) (root : JValue),
      ((ParseCard reg maxDepth root).document.isSome = true ∧
        (ParseCard reg maxDepth root).error = none) ∨
      ((ParseCard reg maxDepth root).document = none ∧
        ∃ k m, (ParseCard reg maxDepth root).error = some (k, m))) ∧
    (∀ (reg : ElementParserRegistration) (maxDepth : Nat) (s : String),
      ((ParseCardFromString reg maxDepth s).document.isSome = true ∧
        (ParseCardFromString reg maxDepth s).error = none) ∨
      ((ParseCardFromString reg maxDepth s).document = none ∧
        ∃ k m, (ParseCardFromString reg maxDepth s).error = some (k, m))) := by
  have hcard : ∀ (reg : ElementParserRegistration) (maxDepth : Nat) (root : JValue),
      ((ParseCard reg maxDepth root).document.isSome = true ∧
        (ParseCard reg maxDepth root).error = none) ∨
      ((ParseCard reg maxDepth root).document = none ∧
        ∃ k m, (ParseCard reg maxDepth root).error = some (k, m)) := by
    intro reg maxDepth root
    cases root with
    | obj fields =>
      unfold ParseCard
      simp only
      split_ifs with h
      · split
        · exact Or.inl ⟨rfl, rfl⟩
        · exact Or.inr ⟨rfl, _, _, rfl⟩
      · exact Or.inr ⟨rfl, _, _, rfl⟩
    | null => exact Or.inr ⟨rfl, _, _, rfl⟩
    | bool b => exact Or.inr ⟨rfl, _, _, rfl⟩
    | num n => exact Or.inr ⟨rfl, _, _, rfl⟩
    | str s2 => exact Or.inr ⟨rfl, _, _, rfl⟩
    | arr xs => exact Or.inr ⟨rfl, _, _, rfl⟩
  refine ⟨hcard, ?_⟩
  intro reg maxDepth s
  unfold ParseCardFromString
  cases parseJson s with
  | none => simp
  | some v => exact hcard reg maxDepth v

/-- Claim C4: a node of unknown type with no fallback parses into the
placeholder preserving the raw node, the document parse succeeds with no fatal
error, and the warnings are exactly one UnknownElementType entry for it. -/
theorem unknown_type_C4 (reg : ElementParserRegistration) (maxDepth : Nat)
    (node : JValue) (t ver : String)
    (ht : getTypeString node = some t)
    (hreg : Get reg t = none)
    (hfb : getFallback node = none) :
    ParseCard reg maxDepth
      (JValue.obj [("type", JValue.str "AdaptiveCard"), ("version", JValue.str ver),
        ("body", JValue.arr [node])]) =
      { document := some
          { version := ver,
            body := [ParsedElement.unknownElement node] },
        warnings := [(WarningKind.UnknownElementType, t)],
        error := none } := by
  have he : ParseElement reg maxDepth node =
      (some (ParsedElement.unknownElement node), [(WarningKind.UnknownElementType, t)]) := by
    unfold ParseElement
    simp [ht, hreg, hfb]
  simp [ParseCard, jsonHasType, getVal, assocFind, getStringField, he]

/-- Witness for C4: an unknown FutureKind node with no fallback against the
built-in registry. -/
theorem unknown_type_C4_witness :
    ParseCard defaultElementRegistration 3
      (JValue.obj [("type", JValue.str "AdaptiveCard"), ("version", JValue.str "1.0"),
        ("body", JValue.arr [JValue.obj [("type", JValue.str "FutureKind")]])]) =
      { document := some
          { version := "1.0",
            body := [ParsedElement.unknownElement
              (JValue.obj [("type", JValue.str "FutureKind")])] },
        warnings := [(WarningKind.UnknownElementType, "FutureKind")],
        error := none } :=
  unknown_type_C4 defaultElementRegistration 3 _ "FutureKind" "1.0" rfl rfl rfl

/-- Claim C5: fallback resolution is bounded: on every input the engine takes
at most depth plus one steps, and at exhausted depth an unknown node with a
fallback is dropped with an additional warning instead of recursing. -/
theorem fallback_bounded_C5 :
    (∀ (reg : ElementParserRegistration) (fuel : Nat) (v : JValue),
      ParseElementSteps reg fuel v ≤ fuel + 1) ∧
    (∀ (reg : ElementParserRegistration) (v : JValue) (t : String) (fb : JValue),
      getTypeString v = some t → Get reg t = none → getFallback v = some fb →
      ParseElement reg 0 v =
        (none, [(WarningKind.UnknownElementType, t), (WarningKind.FallbackDropped, t)])) := by
  constructor
  · intro reg fuel
    induction fuel with
    | zero =>
      intro v
      unfold ParseElementSteps
      split
      · omega
      · split
        · omega
        · split
          · omega
          · exact Nat.le_refl 1
    | succ n ih =>
      intro v
      unfold ParseElementSteps
      split
      · omega
      · split
        · omega
        · split
          · omega
          · rename_i fb hfb
            show 1 + ParseElementSteps reg n fb ≤ n + 1 + 1
            have h2 := ih fb
            omega
  · intro reg v t fb ht hreg hfb
    unfold ParseElement
    simp [ht, hreg, hfb]

/-- Witness for C5: a zero-depth parse of an unknown node with a fallback. -/
theorem fallback_bounded_C5_witness :
    ParseElementSteps [] 0
        (JValue.obj [("type", JValue.str "Future1"),
          ("fallback", JValue.obj [("type", JValue.str "Future2")])]) ≤ 1 ∧
    ParseElement [] 0
        (JValue.obj [("type", JValue.str "Future1"),
          ("fallback", JValue.obj [("type", JValue.str "Future2")])]) =
      (none, [(WarningKind.UnknownElementType, "Future1"),
        (WarningKind.FallbackDropped, "Future1")]) :=
  ⟨fallback_bounded_C5.1 [] 0 _, fallback_bounded_C5.2 [] _ "Future1" _ rfl rfl rfl⟩

/-- Claim C6: for each modelled enum, TryParse falls back to the documented
default on any token outside its table, and an Image node with a bogus
imageSize deserializes successfully with imageSize Auto. -/
theorem enum_default_C6 :
    (∀ s : String, assocFind spacingTable s = none → SpacingFromString s = Spacing.default) ∧
    (∀ s : String, assocFind imageStyleTable s = none →
      ImageStyleFromString s = ImageStyle.default) ∧
    (∀ s : String, assocFind imageSizeTable s = none → ImageSizeFromString s = ImageSize.auto) ∧
    (∀ s : String, assocFind horizontalAlignmentTable s = none →
      HorizontalAlignmentFromString s = HorizontalAlignment.left) ∧
    (∃ img : Image,
      ImageParser.Deserialize (JValue.obj [("type", JValue.str "Image"),
        ("url", JValue.str "u"), ("size", JValue.str "bogus")]) = some img ∧
      img.GetImageSize = ImageSize.auto) := by
  refine ⟨?_, ?_, ?_, ?_, ?_⟩
  · intro s h
    simp [SpacingFromString, h]
  · intro s h
    simp [ImageStyleFromString, h]
  · intro s h
    simp [ImageSizeFromString, h]
  · intro s h
    simp [HorizontalAlignmentFromString, h]
  · exact ⟨_, rfl, rfl⟩

/-- Witness for C6 at the token bogus, outside every table. -/
theorem enum_default_C6_witness :
    SpacingFromString "bogus" = Spacing.default ∧
    ImageSizeFromString "bogus" = ImageSize.auto :=
  ⟨enum_default_C6.1 "bogus" rfl, enum_default_C6.2.2.1 "bogus" rfl⟩

/-- Claim C7: Register overwrites the entry for its key without error and
leaves other keys alone, Unregister of an absent key is a no-op, a subsequent
parse uses the registered deserializer, and registration on one Document leaves
a separately constructed Document on the built-in deserializer. -/
theorem registry_C7 :
    (∀ (reg : ElementParserRegistration) (k : String) (d : ElementDeserializer),
      Get (Register reg k d) k = some d) ∧
    (∀ (reg : ElementParserRegistration) (k k2 : String) (d : ElementDeserializer),
      k2 ≠ k → Get (Register reg k d) k2 = Get reg k2) ∧
    (∀ (reg : ElementParserRegistration) (k : String),
      Get reg k = none → Unregister reg k = reg) ∧
    (∀ (reg : ElementParserRegistration) (maxDepth : Nat) (k : String)
      (d : ElementDeserializer) (v : JValue) (e : ParsedElement),
      getTypeString v = some k → d v = some e →
      ParseElement (Register reg k d) maxDepth v = (some e, [])) ∧
    (∀ d : ElementDeserializer,
      Get (mkCardDocument.registerElement "Image" d).elementParsers "Image" = some d ∧
      Get mkCardDocument.elementParsers "Image" = some imageElementDeserializer) := by
  refine ⟨?_, ?_, ?_, ?_, ?_⟩
  · intro reg k d
    simp [Get, Register, assocFind]
  · intro reg k k2 d h
    unfold Get Register
    rw [assocFind]
    rw [if_neg (fun he => h he.symm)]
    exact assocFind_filter_ne reg k k2 h
  · intro reg k h
    exact assocFind_none_filter_self reg k h
  · intro reg maxDepth k d v e ht hd
    have hget : Get (Register reg k d) k = some d := by simp [Get, Register, assocFind]
    unfold ParseElement
    simp [ht, hget, hd]
  · intro d
    exact ⟨rfl, rfl⟩

/-- Witness for C7: overwriting lookup, cross-key invariance, absent-key
unregister and a parse through a concretely registered deserializer. -/
theorem registry_C7_witness :
    Get (Register defaultElementRegistration "Widget"
        (fun v => some (ParsedElement.custom "Widget" v))) "Image" =
      Get defaultElementRegistration "Image" ∧
    Unregister defaultElementRegistration "Widget" = defaultElementRegistration ∧
    ParseElement (Register defaultElementRegistration "Widget"
        (fun v => some (ParsedElement.custom "Widget" v))) 3
        (JValue.obj [("type", JValue.str "Widget")]) =
      (some (ParsedElement.custom "Widget" (JValue.obj [("type", JValue.str "Widget")])), []) :=
  ⟨registry_C7.2.1 defaultElementRegistration "Widget" "Image" _ (by decide),
    registry_C7.2.2.1 defaultElementRegistration "Widget" rfl,
    registry_C7.2.2.2.1 defaultElementRegistration 3 "Widget" _ _ _ rfl rfl⟩

end AdaptiveCards
